import Mathlib

/-!
Verification development for the odisc OSC-to-MIDI bridge.

The definitions below are a shallow embedding of the core engine in
`src/index.ts`: address normalization, the `/setlist` control-address
interception, rule resolution over the mapping table, the OSC and MIDI
output legs of `handleOscMessage`, and the Quad Cortex preset encoder
`sendQuadCortexPreset`.

Modelling conventions:
- JavaScript numbers are modelled as exact rationals (`Rat`); the decimal
  rendering of a number (JS `String(x)`) is abstracted to the exact
  rendering of the rational value, and `parseFloat` is modelled as a
  prefix parse of an optional sign, integer digits and fraction digits
  (exponent notation is not modelled).  No claim depends on the concrete
  rendering of a numeric value.
- Optional fields of a mapping row (TS `field?: T`) are `Option` fields;
  JavaScript truthiness of an optional string field is
  `fun o => o matches some s with s not empty`.
- The imperative sends (`midiOut.send`, `oscClient.send`) are collected
  into pure lists of messages; `console.error` followed by an early
  return with nothing sent is modelled as `Except.error`.
-/

/-- A received OSC argument: JS `number | string`. -/
inductive OscArg where
  | num (v : Rat)
  | str (s : String)
deriving DecidableEq, Repr

/-- JS `String(arg)` on a received argument (numeric rendering abstracted to
the exact rational rendering; see the header comment). -/
def jsString : OscArg → String
  | .num v => toString v
  | .str s => s

/-- Decimal value of a digit string, as read by JS `parseInt(ds, 10)` on an
all-digit string. -/
def digitsVal (ds : List Char) : Nat :=
  ds.foldl (fun a c => a * 10 + (c.toNat - 48)) 0

/-- JS `parseFloat`, modelled as a prefix parse: leading whitespace, optional
sign, integer digits, optional point and fraction digits; `none` when no
digit is found (`NaN`). -/
def jsParseFloat (s : String) : Option Rat :=
  let cs := s.data.dropWhile (fun c => c.isWhitespace)
  let (sign, cs1) : Int × List Char :=
    match cs with
    | '-' :: rest => (-1, rest)
    | '+' :: rest => (1, rest)
    | _ => (1, cs)
  let intPart := cs1.takeWhile (fun c => c.isDigit)
  let rest1 := cs1.dropWhile (fun c => c.isDigit)
  let fracPart :=
    match rest1 with
    | '.' :: rest => rest.takeWhile (fun c => c.isDigit)
    | _ => []
  if intPart.isEmpty && fracPart.isEmpty then none
  else
    some ((((sign * ((digitsVal intPart * 10 ^ fracPart.length + digitsVal fracPart : Nat) : Int)) : Int) : Rat)
      / (10 : Rat) ^ fracPart.length)

/-- The `midi_type` enum of a mapping row. -/
inductive MidiType where
  | note_on
  | note_off
  | cc
  | pc
  | qc_preset
deriving DecidableEq, Repr

/-- One row of the mapping table (TS interface `Mapping`). -/
structure Mapping where
  osc_in_address : String
  osc_in_args : Option String := none
  osc_out_address : Option String := none
  osc_out_args : Option String := none
  midi_channel : Option Rat := none
  midi_type : Option MidiType := none
  midi_note : Option Rat := none
  midi_velocity : Option Rat := none
  midi_controller : Option Rat := none
  midi_value : Option Rat := none
  qc_preset_id : Option String := none
  setlist : Option Rat := none
deriving DecidableEq, Repr

/-- An outbound MIDI message (`midiOut.send(kind, fields)`). -/
inductive MidiMsg where
  | noteon (note velocity channel : Rat)
  | noteoff (note velocity channel : Rat)
  | cc (controller value channel : Rat)
  | program (number channel : Rat)
deriving DecidableEq, Repr

/-- An outbound OSC argument: float-tagged value or plain string. -/
inductive OutArg where
  | float (v : Rat)
  | str (s : String)
deriving DecidableEq, Repr

/-- An outbound OSC message: target address plus ordered arguments. -/
structure OscOut where
  address : String
  args : List OutArg
deriving DecidableEq, Repr

/-- The mutable session state: the loaded mapping table and the current
setlist (`let mappings ...; let currentSetlist ...`). -/
structure AppState where
  mappings : List Mapping
  currentSetlist : Rat
deriving DecidableEq, Repr

/-- Startup state: table as loaded, `currentSetlist` initialized to 0. -/
def initialState (table : List Mapping) : AppState :=
  { mappings := table, currentSetlist := 0 }

/-- The rational 1.5 (equal to 3/2) as an explicit normalized fraction,
used in concrete test vectors. -/
def threeHalves : Rat := ⟨3, 2, by decide, by decide⟩

/-- Everything sent while handling one inbound message. -/
structure OutEffects where
  oscSends : List OscOut
  midiSends : List MidiMsg
deriving DecidableEq, Repr

/-- Character class `[A-H]` with the `i` regex flag. -/
def isAtoH (c : Char) : Bool :=
  ('A' ≤ c && c ≤ 'H') || ('a' ≤ c && c ≤ 'h')

/-- The regex match `presetId.match` with pattern `(digits)(letter A to H)`
anchored on both sides, case-insensitive: the capture groups are the digit
prefix and the final letter. -/
def qcRegexMatch (s : String) : Option (List Char × Char) :=
  match s.data.getLast? with
  | none => none
  | some c =>
    let ds := s.data.dropLast
    if isAtoH c && !ds.isEmpty && ds.all (fun d => d.isDigit) then some (ds, c)
    else none

/-- Embedding of `sendQuadCortexPreset(presetId, channel, midiOut, setlist)`:
validate the preset identifier, parse the bank, range-check it, and emit the
fixed three-message bank-select plus program-change sequence.  The two
`console.error` early returns are modelled as `Except.error`. -/
def sendQuadCortexPreset (presetId : String) (channel : Rat) (setlist : Rat) :
    Except String (List MidiMsg) :=
  match qcRegexMatch presetId with
  | none => .error "invalid preset format"
  | some (ds, c) =>
    let bank := digitsVal ds
    if bank < 1 || bank > 32 then .error "invalid bank number"
    else
      let presetOffset := c.toUpper.toNat - 'A'.toNat
      let programChangeNumber := (bank - 1) * 8 + presetOffset
      .ok [ .cc 0 0 channel, .cc 32 setlist channel,
            .program ((programChangeNumber : Nat) : Rat) channel ]

/-- Address normalization (`address.endsWith('/') ? address.slice(0, -1) :
address`): strip exactly one trailing slash if present. -/
def normalizeAddress (a : String) : String :=
  if a.data.getLast? = some '/' then String.mk a.data.dropLast else a

/-- The candidate predicate of `mappings.find(...)` in `handleOscMessage`:
address must equal the normalized address; when `osc_in_args` is truthy its
space-split tokens must equal the stringified received arguments with equal
counts. -/
def ruleMatches (normalizedAddress : String) (args : List OscArg) (m : Mapping) : Bool :=
  if m.osc_in_address ≠ normalizedAddress then false
  else
    match m.osc_in_args with
    | some s =>
      if s ≠ "" then
        let expectedArgs := s.splitOn " "
        let receivedArgs := args.map jsString
        if expectedArgs.length ≠ receivedArgs.length then false
        else (expectedArgs.zip receivedArgs).all (fun p => p.1 == p.2)
      else true
    | none => true

/-- Rule resolution: first row of the table satisfying `ruleMatches`
(`mappings.find`). -/
def resolveMapping (table : List Mapping) (normalizedAddress : String)
    (args : List OscArg) : Option Mapping :=
  table.find? (ruleMatches normalizedAddress args)

/-- Forwarding of received arguments on the OSC output leg when the rule has
no `osc_out_args` override: numbers are re-tagged as floats, strings pass
through unchanged. -/
def forwardArgs (args : List OscArg) : List OutArg :=
  args.map (fun a =>
    match a with
    | .num v => .float v
    | .str s => .str s)

/-- Argument construction of the OSC output leg: when `osc_out_args` is
non-null and non-blank after trimming, its space-split tokens are parsed
(numeric parse success yields a float-tagged argument, failure a string);
otherwise the received arguments are forwarded. -/
def buildOscOutArgs (m : Mapping) (args : List OscArg) : List OutArg :=
  match m.osc_out_args with
  | some s =>
    if s.trim ≠ "" then
      (s.splitOn " ").map (fun a =>
        match jsParseFloat a with
        | some num => .float num
        | none => .str a)
    else forwardArgs args
  | none => forwardArgs args

/-- First received argument when it is numeric (`typeof args[0] === 'number'
? args[0] : ...`). -/
def firstNumArg (args : List OscArg) : Option Rat :=
  match args.head? with
  | some (.num v) => some v
  | _ => none

/-- The MIDI output leg of `handleOscMessage` for a resolved rule, given the
current setlist: one message per the switch on `midi_type`, guarded by the
outer `mapping.midi_type && mapping.midi_channel !== undefined` check. -/
def midiMessagesFor (currentSetlist : Rat) (m : Mapping) (args : List OscArg) :
    List MidiMsg :=
  match m.midi_type, m.midi_channel with
  | some mt, some channel =>
    match mt with
    | .note_on =>
      match m.midi_note, m.midi_velocity with
      | some note, some velocity => [.noteon note velocity channel]
      | _, _ => []
    | .note_off =>
      match m.midi_note, m.midi_velocity with
      | some note, some velocity => [.noteoff note velocity channel]
      | _, _ => []
    | .cc =>
      match m.midi_controller with
      | some controller =>
        let value :=
          match m.midi_value with
          | some v => v
          | none =>
            match firstNumArg args with
            | some v => v
            | none => 0
        [.cc controller value channel]
      | none => []
    | .pc =>
      let value :=
        match m.midi_value with
        | some v => v
        | none =>
          match firstNumArg args with
          | some v => v
          | none => 0
      [.program value channel]
    | .qc_preset =>
      match m.qc_preset_id with
      | some pid =>
        if pid ≠ "" then
          let setlist :=
            match m.setlist with
            | some s => s
            | none => currentSetlist
          match sendQuadCortexPreset pid channel setlist with
          | .ok msgs => msgs
          | .error _ => []
        else []
      | none => []
  | _, _ => []

/-- Handling of an inbound message after normalization: the `/setlist`
interception, rule resolution, then the OSC output leg (guarded by a truthy
`osc_out_address`) and the MIDI output leg (guarded by an open MIDI
device). -/
def processNormalized (st : AppState) (midiOutOpen : Bool)
    (normalizedAddress : String) (args : List OscArg) : AppState × OutEffects :=
  if normalizedAddress = "/setlist" then
    match args.head? with
    | some (.num v) => ({ st with currentSetlist := v }, ⟨[], []⟩)
    | _ => (st, ⟨[], []⟩)
  else
    match resolveMapping st.mappings normalizedAddress args with
    | none => (st, ⟨[], []⟩)
    | some mapping =>
      let oscSends :=
        match mapping.osc_out_address with
        | some outAddr =>
          if outAddr ≠ "" then [OscOut.mk outAddr (buildOscOutArgs mapping args)]
          else []
        | none => []
      let midiSends :=
        if midiOutOpen then midiMessagesFor st.currentSetlist mapping args else []
      (st, ⟨oscSends, midiSends⟩)

/-- Embedding of `handleOscMessage(msg, oscClient, midiOut)`: normalize the
address, then process; `midiOutOpen` stands for `midiOut` being non-null. -/
def handleOscMessage (st : AppState) (midiOutOpen : Bool) (address : String)
    (args : List OscArg) : AppState × OutEffects :=
  processNormalized st midiOutOpen (normalizeAddress address) args

/-- Modelled from the spec: the operator-triggered `refreshMappingTable()`
hot-reload entry point and its external `loadMappingTable` collaborator are
not part of the core source (the rule-file reload glue lives outside it);
per the spec, a refresh replaces the whole table by reference on a
successful load, while a failed load attempt keeps the previous table in
effect and must not crash the running dispatcher.  The returned flag records
whether the refresh took effect. -/
def refreshMappingTable (st : AppState) (loadResult : Except String (List Mapping)) :
    AppState × Bool :=
  match loadResult with
  | .ok table => ({ st with mappings := table }, true)
  | .error _ => (st, false)

/-- Matching predicate written from the specification text: a rule matches
iff its `osc_in_address` equals the normalized address exactly, and either
`osc_in_args` is absent or blank (matching any argument list) or its
space-split tokens equal, position by position and with equal counts, the
string representations of the received arguments. -/
def specRuleMatches (normalizedAddress : String) (args : List OscArg) (m : Mapping) : Bool :=
  (m.osc_in_address == normalizedAddress) &&
    (match m.osc_in_args with
     | none => true
     | some s =>
       if s = "" then true
       else
         let toks := s.splitOn " "
         let recv := args.map jsString
         (toks.length == recv.length) && (toks.zip recv).all (fun p => p.1 == p.2))

/-- Validity of a preset identifier, written from the claim text: the regex
matches and the parsed bank lies between 1 and 32. -/
def qcValidId (s : String) : Bool :=
  match qcRegexMatch s with
  | some (ds, _) => decide (1 ≤ digitsVal ds) && decide (digitsVal ds ≤ 32)
  | none => false

theorem toNat_ofNat_valid (n : Nat) (h : n < 55296) : (Char.ofNat n).toNat = n := by
  have hv : n.isValidChar := Or.inl h
  rw [Char.ofNat, dif_pos hv]
  simp [Char.ofNatAux, Char.toNat, UInt32.toNat, BitVec.toNat_ofNatLt]

theorem char_le_toNat {a b : Char} (h : a ≤ b) : a.toNat ≤ b.toNat := by
  rw [Char.le_def, UInt32.le_def, BitVec.le_def] at h
  exact h

theorem upper_offset_le (c : Char) (h : isAtoH c = true) :
    c.toUpper.toNat - 'A'.toNat ≤ 7 := by
  have h' : ('A' ≤ c ∧ c ≤ 'H') ∨ ('a' ≤ c ∧ c ≤ 'h') := by
    simpa [isAtoH, Bool.or_eq_true, Bool.and_eq_true, decide_eq_true_eq] using h
  rcases h' with ⟨h1, h2⟩ | ⟨h1, h2⟩ <;>
    have ha := char_le_toNat h1 <;> have hb := char_le_toNat h2
  · have e1 : ('A' : Char).toNat = 65 := rfl
    have e2 : ('H' : Char).toNat = 72 := rfl
    unfold Char.toUpper
    rw [if_neg (by omega)]
    omega
  · have e1 : ('a' : Char).toNat = 97 := rfl
    have e2 : ('h' : Char).toNat = 104 := rfl
    have e3 : ('A' : Char).toNat = 65 := rfl
    unfold Char.toUpper
    rw [if_pos (by omega), toNat_ofNat_valid _ (by omega)]
    omega

theorem qcRegexMatch_isAtoH {s : String} {ds : List Char} {c : Char}
    (hm : qcRegexMatch s = some (ds, c)) : isAtoH c = true := by
  unfold qcRegexMatch at hm
  split at hm
  · exact absurd hm (by simp)
  · dsimp only at hm
    split at hm
    · next hc =>
      rw [Bool.and_eq_true, Bool.and_eq_true] at hc
      obtain ⟨⟨h1, _⟩, _⟩ := hc
      cases hm
      exact h1
    · exact absurd hm (by simp)

theorem sendQC_ok {s : String} {ds : List Char} {c : Char}
    (hm : qcRegexMatch s = some (ds, c))
    (h1 : 1 ≤ digitsVal ds) (h2 : digitsVal ds ≤ 32) (ch sl : Rat) :
    sendQuadCortexPreset s ch sl =
      .ok [.cc 0 0 ch, .cc 32 sl ch,
           .program (((digitsVal ds - 1) * 8 + (c.toUpper.toNat - 'A'.toNat) : Nat) : Rat) ch] := by
  unfold sendQuadCortexPreset
  rw [hm]
  have hcond : (decide (digitsVal ds < 1) || decide (digitsVal ds > 32)) = false := by
    simp only [Bool.or_eq_false_iff, decide_eq_false_iff_not]
    omega
  simp only [hcond, Bool.false_eq_true, if_false]

/-- Claim C2: for every preset identifier matching the pattern (digits then a
letter A to H, case-insensitive) whose bank is between 1 and 32, the preset
encoder emits exactly three MIDI messages on the given channel in the fixed
order CC#0 value 0, CC#32 value = resolved setlist, then a program change
numbered (bank - 1) * 8 + the zero-based letter offset, and the program
number always lies in [0, 255]; in particular 1A gives program 0, 1H gives
7, 2A gives 8 and 32H gives 255. -/
theorem claimC2 (s : String) (ch sl : Rat) (ds : List Char) (c : Char)
    (hm : qcRegexMatch s = some (ds, c))
    (h1 : 1 ≤ digitsVal ds) (h2 : digitsVal ds ≤ 32) :
    sendQuadCortexPreset s ch sl =
      .ok [MidiMsg.cc 0 0 ch, MidiMsg.cc 32 sl ch,
           MidiMsg.program (((digitsVal ds - 1) * 8 + (c.toUpper.toNat - 'A'.toNat) : Nat) : Rat) ch] ∧
    (digitsVal ds - 1) * 8 + (c.toUpper.toNat - 'A'.toNat) ≤ 255 ∧
    ∀ ch2 sl2 : Rat,
      sendQuadCortexPreset "1A" ch2 sl2 =
        .ok [MidiMsg.cc 0 0 ch2, MidiMsg.cc 32 sl2 ch2, MidiMsg.program 0 ch2] ∧
      sendQuadCortexPreset "1H" ch2 sl2 =
        .ok [MidiMsg.cc 0 0 ch2, MidiMsg.cc 32 sl2 ch2, MidiMsg.program 7 ch2] ∧
      sendQuadCortexPreset "2A" ch2 sl2 =
        .ok [MidiMsg.cc 0 0 ch2, MidiMsg.cc 32 sl2 ch2, MidiMsg.program 8 ch2] ∧
      sendQuadCortexPreset "32H" ch2 sl2 =
        .ok [MidiMsg.cc 0 0 ch2, MidiMsg.cc 32 sl2 ch2, MidiMsg.program 255 ch2] := by
  refine ⟨sendQC_ok hm h1 h2 ch sl, ?_, ?_⟩
  · have := upper_offset_le c (qcRegexMatch_isAtoH hm)
    omega
  · intro ch2 sl2
    refine ⟨?_, ?_, ?_, ?_⟩
    · rw [sendQC_ok (show qcRegexMatch "1A" = some (['1'], 'A') from by decide)
        (by decide) (by decide),
        show ((digitsVal ['1'] - 1) * 8 + ('A'.toUpper.toNat - 'A'.toNat) : Nat) = 0 from by decide]
      norm_num
    · rw [sendQC_ok (show qcRegexMatch "1H" = some (['1'], 'H') from by decide)
        (by decide) (by decide),
        show ((digitsVal ['1'] - 1) * 8 + ('H'.toUpper.toNat - 'A'.toNat) : Nat) = 7 from by decide]
      norm_num
    · rw [sendQC_ok (show qcRegexMatch "2A" = some (['2'], 'A') from by decide)
        (by decide) (by decide),
        show ((digitsVal ['2'] - 1) * 8 + ('A'.toUpper.toNat - 'A'.toNat) : Nat) = 8 from by decide]
      norm_num
    · rw [sendQC_ok (show qcRegexMatch "32H" = some (['3', '2'], 'H') from by decide)
        (by decide) (by decide),
        show ((digitsVal ['3', '2'] - 1) * 8 + ('H'.toUpper.toNat - 'A'.toNat) : Nat) = 255 from by decide]
      norm_num

/-- Witness for claim C2 at the concrete preset 1A on channel 1 with
setlist 5. -/
theorem claimC2_witness :
    sendQuadCortexPreset "1A" 1 5 =
      .ok [MidiMsg.cc 0 0 1, MidiMsg.cc 32 5 1, MidiMsg.program 0 1] := by
  have h := claimC2 "1A" 1 5 ['1'] 'A' (by decide) (by decide) (by decide)
  rw [h.1,
    show ((digitsVal ['1'] - 1) * 8 + ('A'.toUpper.toNat - 'A'.toNat) : Nat) = 0 from by decide]
  norm_num

/-- Claim C3: every preset identifier that fails the regex or whose bank is
outside [1, 32] makes the encoder fail with an error and emit no MIDI at
all; in particular 0A, 33A, 1I and abc are all rejected. -/
theorem claimC3 (s : String) (ch sl : Rat) :
    (qcValidId s = false → ∃ e, sendQuadCortexPreset s ch sl = .error e) ∧
    sendQuadCortexPreset "0A" ch sl = .error "invalid bank number" ∧
    sendQuadCortexPreset "33A" ch sl = .error "invalid bank number" ∧
    sendQuadCortexPreset "1I" ch sl = .error "invalid preset format" ∧
    sendQuadCortexPreset "abc" ch sl = .error "invalid preset format" := by
  refine ⟨?_, rfl, rfl, rfl, rfl⟩
  intro hv
  unfold qcValidId at hv
  unfold sendQuadCortexPreset
  cases hmm : qcRegexMatch s with
  | none => exact ⟨_, rfl⟩
  | some p =>
    obtain ⟨ds, c⟩ := p
    rw [hmm] at hv
    have hb : ¬ (1 ≤ digitsVal ds ∧ digitsVal ds ≤ 32) := by
      rintro ⟨hx, hy⟩
      simp [hx, hy] at hv
    have hcond : (decide (digitsVal ds < 1) || decide (digitsVal ds > 32)) = true := by
      simp only [Bool.or_eq_true, decide_eq_true_eq]
      omega
    dsimp only
    rw [if_pos hcond]
    exact ⟨_, rfl⟩

/-- Witness for claim C3 at the concrete rejected preset identifier 1I. -/
theorem claimC3_witness :
    qcValidId "1I" = false ∧ ∃ e, sendQuadCortexPreset "1I" 0 0 = .error e :=
  ⟨by decide, (claimC3 "1I" 0 0).1 (by decide)⟩

theorem ruleMatches_eq_spec (addr : String) (args : List OscArg) (m : Mapping) :
    ruleMatches addr args m = specRuleMatches addr args m := by
  unfold ruleMatches specRuleMatches
  by_cases ha : m.osc_in_address = addr
  · rw [if_neg (by simp [ha])]
    cases m.osc_in_args with
    | none => simp [ha]
    | some s =>
      dsimp only
      by_cases hs : s = ""
      · simp [ha, hs]
      · rw [if_pos hs, if_neg hs]
        by_cases hl : (s.splitOn " ").length = (args.map jsString).length
        · simp [ha, hl, beq_eq_decide]
        · simp [ha, hl, beq_eq_decide]
          congr 1
          exact decide_eq_decide.mpr Iff.rfl
  · rw [if_pos ha]
    simp [ha]

/-- Claim C1: for every table and inbound message, the resolver returns
exactly the first rule in table order satisfying the specified match
predicate (address equal to the normalized address; `osc_in_args` absent or
blank matching anything, else space-split tokens equal, position by position
with equal counts, to the stringified received arguments); every earlier row
fails the predicate, so ties are broken purely by table order. -/
theorem claimC1 (table : List Mapping) (addr : String) (args : List OscArg) (m : Mapping) :
    resolveMapping table addr args = some m ↔
      specRuleMatches addr args m = true ∧
      ∃ pre post, table = pre ++ m :: post ∧
        ∀ m2 ∈ pre, specRuleMatches addr args m2 = false := by
  have hfun : ruleMatches addr args = specRuleMatches addr args :=
    funext (fun m2 => ruleMatches_eq_spec addr args m2)
  unfold resolveMapping
  rw [hfun]
  simp only [List.find?_eq_some, Bool.not_eq_true']

/-- Witness for claim C1: a two-row table where the second row matches the
address; the resolver returns it with the non-matching first row as the
prefix. -/
theorem claimC1_witness :
    resolveMapping [{ osc_in_address := "/b" }, { osc_in_address := "/a" }] "/a" [] =
      some { osc_in_address := "/a" } :=
  (claimC1 [{ osc_in_address := "/b" }, { osc_in_address := "/a" }] "/a" [] _).mpr
    ⟨by decide, [{ osc_in_address := "/b" }], [], rfl, by decide⟩

theorem normalizeAddress_append_slash (a : String) (h : a.data.getLast? = some '/') :
    String.mk a.data.dropLast ++ "/" = a := by
  have hne : a.data ≠ [] := by
    intro h0
    rw [h0] at h
    simp at h
  have hl : a.data.getLast hne = '/' := by
    have h2 := List.getLast?_eq_getLast a.data hne
    rw [h2] at h
    exact (Option.some_inj.mp h.symm).symm
  have hd : (String.mk a.data.dropLast ++ "/").data = a.data := by
    show a.data.dropLast ++ ['/'] = a.data
    rw [← hl]
    exact List.dropLast_append_getLast hne
  cases a
  exact congrArg String.mk hd

/-- Claim C4: address normalization strips exactly one trailing slash when
present (appending one slash restores the original address, so nothing else
is changed) and is the identity otherwise; consequently the addresses /foo/
and /foo are handled identically against every table and argument list. -/
theorem claimC4 (a : String) (st : AppState) (mo : Bool) (args : List OscArg) :
    (a.data.getLast? = some '/' → normalizeAddress a ++ "/" = a) ∧
    (a.data.getLast? ≠ some '/' → normalizeAddress a = a) ∧
    handleOscMessage st mo "/foo/" args = handleOscMessage st mo "/foo" args := by
  refine ⟨?_, ?_, ?_⟩
  · intro h
    unfold normalizeAddress
    rw [if_pos h]
    exact normalizeAddress_append_slash a h
  · intro h
    unfold normalizeAddress
    rw [if_neg h]
  · unfold handleOscMessage
    rw [show normalizeAddress "/foo/" = "/foo" from by decide,
        show normalizeAddress "/foo" = "/foo" from by decide]

/-- Witness for claim C4 at the concrete address /x/ with a trailing
slash. -/
theorem claimC4_witness :
    "/x/".data.getLast? = some '/' ∧ normalizeAddress "/x/" ++ "/" = "/x/" :=
  ⟨by decide, (claimC4 "/x/" (initialState []) false []).1 (by decide)⟩

/-- Claim C5: a message whose normalized address is exactly /setlist is
intercepted before resolution: no OSC or MIDI output is produced and the
table is untouched; a numeric first argument updates the current setlist to
that value, and a non-numeric (or missing) first argument leaves the whole
state unchanged. -/
theorem claimC5 (st : AppState) (mo : Bool) (addr : String) (args : List OscArg)
    (h : normalizeAddress addr = "/setlist") :
    (handleOscMessage st mo addr args).2 = ⟨[], []⟩ ∧
    (handleOscMessage st mo addr args).1.mappings = st.mappings ∧
    (∀ v, args.head? = some (.num v) →
      (handleOscMessage st mo addr args).1.currentSetlist = v) ∧
    ((∀ v, args.head? ≠ some (.num v)) →
      (handleOscMessage st mo addr args).1 = st) := by
  unfold handleOscMessage processNormalized
  rw [h, if_pos rfl]
  cases hh : args.head? with
  | none => simp
  | some a =>
    cases a with
    | num v =>
      refine ⟨rfl, rfl, ?_, ?_⟩
      · intro v2 hv2
        cases hv2
        rfl
      · intro hnone
        exact absurd rfl (hnone v)
    | str s => simp

/-- Witness for claim C5: a numeric /setlist message updates the setlist to
3 and produces no output. -/
theorem claimC5_witness :
    (handleOscMessage (initialState []) false "/setlist" [OscArg.num 3]).1.currentSetlist = 3 ∧
    (handleOscMessage (initialState []) false "/setlist" [OscArg.num 3]).2 = ⟨[], []⟩ :=
  ⟨(claimC5 (initialState []) false "/setlist" [OscArg.num 3] (by decide)).2.2.1 3 rfl,
   (claimC5 (initialState []) false "/setlist" [OscArg.num 3] (by decide)).1⟩

/-- Claim C6: for a resolved qc_preset rule the setlist handed to the preset
encoder is the rule setlist field when defined and the current SetlistState
otherwise, and SetlistState starts at 0 before any /setlist update. -/
theorem claimC6 (cs : Rat) (m : Mapping) (args : List OscArg) (pid : String) (ch : Rat)
    (ht : m.midi_type = some .qc_preset) (hp : m.qc_preset_id = some pid)
    (hne : pid ≠ "") (hc : m.midi_channel = some ch) :
    midiMessagesFor cs m args =
      (match sendQuadCortexPreset pid ch (m.setlist.getD cs) with
       | .ok msgs => msgs
       | .error _ => []) ∧
    ∀ table, (initialState table).currentSetlist = 0 := by
  refine ⟨?_, fun _ => rfl⟩
  unfold midiMessagesFor
  rw [ht, hc]
  dsimp only
  rw [hp]
  dsimp only
  rw [if_pos hne]
  cases hs : m.setlist <;> simp [Option.getD]

/-- Witness for claim C6: a qc_preset rule carrying setlist 3 overrides the
current SetlistState 9, yielding CC#32 value 3. -/
theorem claimC6_witness :
    midiMessagesFor 9
      { osc_in_address := "/q", midi_channel := some 1,
        midi_type := some .qc_preset, qc_preset_id := some "2B",
        setlist := some 3 } [] =
      [MidiMsg.cc 0 0 1, MidiMsg.cc 32 3 1, MidiMsg.program 9 1] := by
  have h := (claimC6 9
    { osc_in_address := "/q", midi_channel := some 1,
      midi_type := some .qc_preset, qc_preset_id := some "2B",
      setlist := some 3 } [] "2B" 1 rfl rfl (by decide) rfl).1
  rw [h]
  decide

/-- Claim C7: on the OSC output leg, a present and non-blank (after
trimming) osc_out_args yields its space-split tokens, each float-tagged when
it parses as a number and kept as a string otherwise, in original order; an
absent or blank osc_out_args forwards the received arguments with numeric
arguments re-tagged as floats and strings passed through unchanged, so
receiving [1.5, x] forwards [1.5 as float, x as string]. -/
theorem claimC7 (m : Mapping) (args : List OscArg) (s : String) :
    (m.osc_out_args = some s → s.trim ≠ "" →
      buildOscOutArgs m args = (s.splitOn " ").map (fun t =>
        match jsParseFloat t with
        | some v => OutArg.float v
        | none => OutArg.str t)) ∧
    (m.osc_out_args = none →
      buildOscOutArgs m args = args.map (fun a =>
        match a with
        | .num v => OutArg.float v
        | .str s2 => OutArg.str s2)) ∧
    (m.osc_out_args = some s → s.trim = "" →
      buildOscOutArgs m args = args.map (fun a =>
        match a with
        | .num v => OutArg.float v
        | .str s2 => OutArg.str s2)) ∧
    handleOscMessage
        (initialState [{ osc_in_address := "/in", osc_out_address := some "/out" }])
        false "/in" [OscArg.num threeHalves, OscArg.str "x"] =
      (initialState [{ osc_in_address := "/in", osc_out_address := some "/out" }],
       ⟨[OscOut.mk "/out" [OutArg.float threeHalves, OutArg.str "x"]], []⟩) := by
  refine ⟨?_, ?_, ?_, by decide⟩
  · intro h hs
    unfold buildOscOutArgs
    rw [h]
    dsimp only
    rw [if_pos hs]
  · intro h
    unfold buildOscOutArgs
    rw [h]
    rfl
  · intro h hs
    unfold buildOscOutArgs
    rw [h]
    dsimp only
    rw [if_neg (by simp [hs])]
    rfl

/-- Witness for claim C7: a rule without an osc_out_args override forwards
the arguments 1.5 and x with the number re-tagged as a float. -/
theorem claimC7_witness :
    buildOscOutArgs { osc_in_address := "/p" } [OscArg.num threeHalves, OscArg.str "x"] =
      [OutArg.float threeHalves, OutArg.str "x"] := by
  have h := (claimC7 { osc_in_address := "/p" }
    [OscArg.num threeHalves, OscArg.str "x"] "").2.1 rfl
  rw [h]
  decide

/-- Claim C8: for a resolved cc rule (with a controller) or pc rule, the
emitted value is the rule midi_value when defined, else the first received
argument when numeric, else 0; cc emits exactly one control-change and pc
exactly one program-change (which carries no controller field). -/
theorem claimC8 (cs : Rat) (m : Mapping) (args : List OscArg) (ch : Rat)
    (hc : m.midi_channel = some ch) :
    (∀ ctl, m.midi_type = some .cc → m.midi_controller = some ctl →
      midiMessagesFor cs m args =
        [MidiMsg.cc ctl (m.midi_value.getD ((firstNumArg args).getD 0)) ch]) ∧
    (m.midi_type = some .pc →
      midiMessagesFor cs m args =
        [MidiMsg.program (m.midi_value.getD ((firstNumArg args).getD 0)) ch]) := by
  constructor
  · intro ctl ht hctl
    unfold midiMessagesFor
    rw [ht, hc]
    dsimp only
    rw [hctl]
    cases hv : m.midi_value <;> cases ha : firstNumArg args <;> simp [Option.getD]
  · intro ht
    unfold midiMessagesFor
    rw [ht, hc]
    dsimp only
    cases hv : m.midi_value <;> cases ha : firstNumArg args <;> simp [Option.getD]

/-- Witness for claim C8: a cc rule without midi_value takes the numeric
first argument 5 as the emitted value. -/
theorem claimC8_witness :
    midiMessagesFor 0
      { osc_in_address := "/c", midi_channel := some 1,
        midi_type := some .cc, midi_controller := some 7 }
      [OscArg.num 5] = [MidiMsg.cc 7 5 1] := by
  have h := (claimC8 0
    { osc_in_address := "/c", midi_channel := some 1,
      midi_type := some .cc, midi_controller := some 7 }
    [OscArg.num 5] 1 rfl).1 7 rfl rfl
  rw [h]
  decide

/-- Claim C9: the refresh entry point hot-swaps the whole table on a
successful load while preserving the rest of the session state, and a failed
load attempt leaves the previously loaded table (indeed the whole state) in
effect, with the dispatcher continuing to process messages exactly as
before. -/
theorem claimC9 (st : AppState) (e : String) (table : List Mapping) :
    refreshMappingTable st (.error e) = (st, false) ∧
    (refreshMappingTable st (.ok table)).1.mappings = table ∧
    (refreshMappingTable st (.ok table)).1.currentSetlist = st.currentSetlist ∧
    ∀ mo addr args,
      handleOscMessage (refreshMappingTable st (.error e)).1 mo addr args =
        handleOscMessage st mo addr args :=
  ⟨rfl, rfl, rfl, fun _ _ _ => rfl⟩

/-- Claim C10: with no MIDI output device open, handling any message emits
no MIDI at all while producing the same state and the same OSC sends as
with a device open. -/
theorem claimC10 (st : AppState) (addr : String) (args : List OscArg) :
    handleOscMessage st false addr args =
      ((handleOscMessage st true addr args).1,
       ⟨(handleOscMessage st true addr args).2.oscSends, []⟩) := by
  unfold handleOscMessage processNormalized
  split
  · split <;> rfl
  · split <;> rfl
